import Mathlib

/-!
Shallow embedding of `src/degiro-steuer-scrape.py`.

The repository parses the text of a broker annual statement, extracts a
dividend table, a realized-gains table and a scalar transaction fee, and
emits ten labeled report lines.

Modelling conventions:
* text is `List Char`; amounts are `ℚ` (CPython `float` arithmetic on the
  small decimal-comma figures involved is exact enough that every claim here
  is about formula structure, not binary rounding);
* a Python function that can raise an uncaught exception is embedded with an
  explicit error constructor (`Option`, `DivResult.err`, `RealResult.err`);
* `main` returns `Option (List ReportLine)`: `none` models a run that aborts
  before `save_to_excel` is reached, i.e. no output file is written;
* the literal regex searches of the source are embedded as substring and
  backtracking scanners whose equivalence with the Python leftmost-match,
  lazy-group and greedy-class semantics is argued in the comments at each
  definition.
`extract_text_from_pdf` (the PDF collaborator), `save_to_excel` (the sink)
and the never-called `extract_general_data` are outside the embedded core.
-/

namespace Degiro

/-- The Python regex class `\s` on the ASCII range reachable from extracted PDF text. -/
def isSpace (c : Char) : Bool :=
  c = ' ' || c = '\t' || c = '\n' || c = '\r' || c = '\x0b' || c = '\x0c'

/-- `pat` is a prefix of `s` (character-literal matching). -/
def startsWith : List Char → List Char → Bool
  | [], _ => true
  | _ :: _, [] => false
  | p :: ps, c :: cs => p = c && startsWith ps cs

/-- Split at the first occurrence of the literal `pat`: returns the text
before the occurrence and the text after it.  This is `re.search` for a
literal pattern. -/
def splitFirst (pat : List Char) : List Char → Option (List Char × List Char)
  | [] => if startsWith pat [] then some ([], []) else none
  | c :: cs =>
    if startsWith pat (c :: cs) then some ([], (c :: cs).drop pat.length)
    else
      match splitFirst pat cs with
      | some (pre, post) => some (c :: pre, post)
      | none => none

/-- The text strictly between the first occurrence of `startPat` and the
first occurrence of `stopPat` that follows it.

This embeds `re.search(startPat + "(.*?)" + stopPat, text, re.DOTALL)`:
the leftmost regex match begins at the first occurrence of the literal
`startPat` (a stop occurring after any later start occurrence also occurs
after the first one), and the lazy group ends at the first following
occurrence of `stopPat`. -/
def sectionBetween (startPat stopPat text : List Char) : Option (List Char) :=
  match splitFirst startPat text with
  | none => none
  | some (_, rest) =>
    match splitFirst stopPat rest with
    | none => none
    | some (mid, _) => some mid

/-- Python `str.strip()`. -/
def strip (s : List Char) : List Char :=
  ((s.dropWhile isSpace).reverse.dropWhile isSpace).reverse

/-- Python `re.split(r"\s+", line)`: tokens between maximal whitespace runs,
with an empty token at either end when the line starts or ends with
whitespace, and `[""]` for the empty line.  Processed from the right: a
whitespace character extends the following run (result unchanged) or opens
a new separator (fresh empty token); a non-whitespace character joins the
first token. -/
def splitWs : List Char → List (List Char)
  | [] => [[]]
  | c :: cs =>
    if isSpace c then
      match cs with
      | c2 :: _ => if isSpace c2 then splitWs cs else [] :: splitWs cs
      | [] => [[], []]
    else
      match splitWs cs with
      | t :: ts => (c :: t) :: ts
      | [] => [[c]]

def digitVal (c : Char) : Nat := c.toNat - 48

def natOfDigits (s : List Char) : Nat :=
  s.foldl (fun acc c => 10 * acc + digitVal c) 0

def allDigits (s : List Char) : Bool := s.all Char.isDigit

/-- Python `float(s)` restricted to the token shapes reachable in this
program (optional sign, digits with at most one period, at least one digit;
the tokens fed to `float` here never contain exponents, underscores, spaces
or `inf`/`nan` spellings).  `none` models a raised `ValueError`. -/
def parseUnsigned (s : List Char) : Option ℚ :=
  match s.splitOn '.' with
  | [ip] => if !ip.isEmpty && allDigits ip then some (natOfDigits ip) else none
  | [ip, fp] =>
    if (!ip.isEmpty || !fp.isEmpty) && allDigits ip && allDigits fp then
      some (mkRat (natOfDigits ip * 10 ^ fp.length + natOfDigits fp) (10 ^ fp.length))
    else none
  | _ => none

def parseFloatQ (s : List Char) : Option ℚ :=
  match s with
  | '-' :: rest => (parseUnsigned rest).map (fun q => -q)
  | '+' :: rest => parseUnsigned rest
  | _ => parseUnsigned s

/-- `str.replace(",", ".")` applied characterwise. -/
def commaToDot (c : Char) : Char := if c = ',' then '.' else c

def replCommas (s : List Char) : List Char := s.map commaToDot

/-! ## Dividend table extractor (`extract_dividend_table`) -/

/-- One row of the dividend frame.  `pd.DataFrame` pads a row shorter than
the widest with `None`; `.str.replace` maps `None` to `NaN` and
`astype(float)` keeps it, so a numeric cell is `Option ℚ` with `none`
playing `NaN`.  The `Land` cell comes from the first token and a row from
`splitWs` always has at least one token, so it stays a plain string. -/
structure DividendRecord where
  land : List Char
  brutto : Option ℚ
  quellensteuer : Option ℚ
  netto : Option ℚ
deriving DecidableEq, Repr

/-- The hard-coded domestic jurisdiction code of the source. -/
def deCode : List Char := ['D', 'E']

/-- The derived `Steuersatz` column (line 47 of the source); computed but
never consumed downstream.  `NaN` cells propagate; a `ℚ` division (0 at
denominator 0, where pandas would produce a non-finite float) is an
adequate stand-in for the present case. -/
def steuersatz (r : DividendRecord) : Option ℚ :=
  match r.quellensteuer, r.brutto with
  | some q, some b => some (q / b)
  | _, _ => none

/-- `df["Bruttodividende"].sum()` (line 49): pandas sums skip `NaN`. -/
def dividendSum (recs : List DividendRecord) : ℚ :=
  (recs.filterMap (fun r => r.brutto)).sum

/-- Line 50: sum of `Bruttodividende` where `Land == "DE"`, skipping `NaN`. -/
def dividendSumDe (recs : List DividendRecord) : ℚ :=
  ((recs.filter (fun r => decide (r.land = deCode))).filterMap (fun r => r.brutto)).sum

/-- Line 51: sum of `Bruttodividende` where `Land != "DE"`, skipping `NaN`. -/
def dividendSumAusl (recs : List DividendRecord) : ℚ :=
  ((recs.filter (fun r => decide (r.land ≠ deCode))).filterMap (fun r => r.brutto)).sum

/-- Sum of `Quellensteuer` over the domestic rows (line 173 of the source),
skipping `NaN`. -/
def dividendSteuerDe (recs : List DividendRecord) : ℚ :=
  ((recs.filter (fun r => decide (r.land = deCode))).filterMap
    (fun r => r.quellensteuer)).sum

def divHeader : List Char :=
  "Land Bruttodividende Quellensteuer Nettodividende\n".toList

def divFooter : List Char := "\nKuponübersicht".toList

/-- One cell of a numeric column under
`.str.replace(",", ".").astype(float)`: a padding `None` passes through as
`NaN` (inner `none`); a token either converts or makes `astype` raise
`ValueError` (outer `none`). -/
def convertCell (cell : Option (List Char)) : Option (Option ℚ) :=
  match cell with
  | none => some none
  | some tok =>
    match parseFloatQ (replCommas tok) with
    | some q => some (some q)
    | none => none

/-- One row of `divi_data` turned into a frame row: cell `j` is token `j`
when present and the pandas padding `None` otherwise (rows are only
consulted after the frame-width check, so tokens beyond the fourth cannot
occur).  `none` models the `ValueError` raised by `astype`. -/
def parseDividendRow (tokens : List (List Char)) : Option DividendRecord :=
  match convertCell (tokens.get? 1), convertCell (tokens.get? 2),
      convertCell (tokens.get? 3) with
  | some bv, some qv, some nv => some ⟨(tokens.get? 0).getD [], bv, qv, nv⟩
  | _, _, _ => none

def parseDividendRows : List (List (List Char)) → Option (List DividendRecord)
  | [] => some []
  | r :: rs =>
    match parseDividendRow r, parseDividendRows rs with
    | some a, some as => some (a :: as)
    | _, _ => none

/-- The width of the 2-D object array `pd.DataFrame` builds from
`divi_data`: the maximum token count over the rows. -/
def maxRowWidth (rows : List (List (List Char))) : Nat :=
  (rows.map List.length).foldr max 0

/-- Result of `extract_dividend_table`.  The Python function returns either
the 4-tuple `(df, sum, sum_de, sum_ausl)` or — when the section is missing
or any exception was caught — a bare empty `DataFrame`, which the caller in
`main` cannot unpack into four names (`ValueError` at line 163).  Both
non-tuple outcomes are `err`. -/
inductive DivResult where
  | err : DivResult
  | ok : List DividendRecord → ℚ → ℚ → ℚ → DivResult
deriving DecidableEq, Repr

/-- Whether the extraction produced the 4-tuple the caller can unpack. -/
def DivResult.isOk : DivResult → Bool
  | .err => false
  | .ok _ _ _ _ => true

def divLines (tbl : List Char) : List (List Char) := (strip tbl).splitOn '\n'

/-- `divi_data`: every line but the last, split on whitespace runs. -/
def divRows (tbl : List Char) : List (List (List Char)) :=
  ((divLines tbl).dropLast).map splitWs

/-- Body of `extract_dividend_table` after the section has been located.
`pd.DataFrame(divi_data, columns=[4 names])` builds a 2-D object array as
wide as the widest row, padding shorter rows with `None`, and raises only
when that width differs from the four column names (with no width check at
all for zero rows); the subsequent `astype(float)` raises on any
unparsable token.  Both exceptions are caught and the caller then fails to
unpack the bare `DataFrame` (`err`). -/
def parseDividendSection (tbl : List Char) : DivResult :=
  if divRows tbl ≠ [] ∧ maxRowWidth (divRows tbl) ≠ 4 then .err
  else
    match parseDividendRows (divRows tbl) with
    | some recs =>
      .ok recs (dividendSum recs) (dividendSumDe recs) (dividendSumAusl recs)
    | none => .err

def extract_dividend_table (text : List Char) : DivResult :=
  match sectionBetween divHeader divFooter text with
  | none => .err
  | some tbl => parseDividendSection tbl

/-! ## Realized gains extractor (`extract_realized_profits_and_fees`)

The row pattern of the source is
`([A-Za-z0-9\s&\.\-]+)\s+([A-Z0-9]+)\s+([\-0-9,\.]+)\s+([\-0-9,\.]+)`:
seven components, each "one or more characters of a class".  A generic
backtracking matcher over such component lists reproduces the Python
semantics exactly: each greedy `+` tries its longest feasible run first and
shrinks on failure, and the first full success wins. -/

structure RealizedGainRecord where
  produkt : List Char
  isin : List Char
  realisiert : ℚ
  gebuehr : ℚ
  land : List Char
deriving DecidableEq, Repr

/-- The derived `G/V` column: `realizedGainLoss - transactionFee`. -/
def gvOf (r : RealizedGainRecord) : ℚ := r.realisiert - r.gebuehr

def positiveEntries (recs : List RealizedGainRecord) : ℚ :=
  ((recs.filter (fun r => decide (0 < gvOf r))).map gvOf).sum

def negativeEntries (recs : List RealizedGainRecord) : ℚ :=
  ((recs.filter (fun r => decide (gvOf r < 0))).map gvOf).sum

def positiveEntriesDe (recs : List RealizedGainRecord) : ℚ :=
  ((recs.filter (fun r => decide (0 < gvOf r) && decide (r.land = deCode))).map gvOf).sum

def negativeEntriesDe (recs : List RealizedGainRecord) : ℚ :=
  ((recs.filter (fun r => decide (gvOf r < 0) && decide (r.land = deCode))).map gvOf).sum

def positiveEntriesAusl (recs : List RealizedGainRecord) : ℚ :=
  ((recs.filter (fun r => decide (0 < gvOf r) && decide (r.land ≠ deCode))).map gvOf).sum

def negativeEntriesAusl (recs : List RealizedGainRecord) : ℚ :=
  ((recs.filter (fun r => decide (gvOf r < 0) && decide (r.land ≠ deCode))).map gvOf).sum

/-- Character class `[A-Za-z0-9\s&\.\-]` (product names). -/
def isCls1 (c : Char) : Bool :=
  ('A' ≤ c && c ≤ 'Z') || ('a' ≤ c && c ≤ 'z') || c.isDigit || isSpace c ||
    c = '&' || c = '.' || c = '-'

/-- Character class `[A-Z0-9]` (ISIN-like tokens). -/
def isClsIsin (c : Char) : Bool := ('A' ≤ c && c ≤ 'Z') || c.isDigit

/-- Character class `[\-0-9,\.]` (signed comma-decimal tokens). -/
def isClsNum (c : Char) : Bool := c = '-' || c.isDigit || c = ',' || c = '.'

/-- All nonempty splits `(tok, rest)` of `s` with `tok` a run of `p`-
characters, longest first — the candidate order a greedy `p+` explores. -/
def prefixRuns (p : Char → Bool) (s : List Char) : List (List Char × List Char) :=
  (List.range (s.takeWhile p).length).map
    (fun i =>
      (s.take ((s.takeWhile p).length - i), s.drop ((s.takeWhile p).length - i)))

/-- Backtracking match of a sequence of `class+` components against a prefix
of `s`; returns the captured runs and the remaining suffix of the first
(leftmost-greedy) success, exactly in the order the Python engine explores them. -/
def matchSeq (preds : List (Char → Bool)) (s : List Char) :
    Option (List (List Char) × List Char) :=
  match preds with
  | [] => some ([], s)
  | p :: ps =>
    (prefixRuns p s).findSome? (fun pr =>
      match matchSeq ps pr.2 with
      | some gr => some (pr.1 :: gr.1, gr.2)
      | none => none)

/-- `re.findall` for a `class+`-sequence pattern: scan left to right, at
each position try a match, on success continue after the consumed text.
The pattern consumes at least one character per match, so `fuel` set to the
text length never runs out; it only discharges termination. -/
def scanRows (fuel : Nat) (preds : List (Char → Bool)) (s : List Char) :
    List (List (List Char)) :=
  match fuel, s with
  | 0, _ => []
  | _, [] => []
  | fuel + 1, c :: rest =>
    match matchSeq preds (c :: rest) with
    | some (gs, rem) => gs :: scanRows fuel preds rem
    | none => scanRows fuel preds rest

def rowPreds : List (Char → Bool) :=
  [isCls1, isSpace, isClsIsin, isSpace, isClsNum, isSpace, isClsNum]

/-- The four captured groups of every row match in the section. -/
def findTableRows (s : List Char) :
    List (List Char × List Char × List Char × List Char) :=
  (scanRows (s.length + 1) rowPreds s).filterMap (fun gs =>
    match gs with
    | [g0, _, g1, _, g2, _, g3] => some (g0, g1, g2, g3)
    | _ => none)

/-- Result of `extract_realized_profits_and_fees`.  `noSection` is the
explicit `return None` (which the caller in `main` then fails to unpack);
`err` is an uncaught exception escaping the function: `pd.DataFrame([])`
built from zero rows has no columns, so the numeric-conversion
`df[col]` raises `KeyError`, and an unparsable numeric string makes
`astype(float)` raise `ValueError`. -/
inductive RealResult where
  | noSection : RealResult
  | err : RealResult
  | ok : List RealizedGainRecord → ℚ → ℚ → ℚ → ℚ → ℚ → ℚ → RealResult
deriving DecidableEq, Repr

def realStart : List Char := "Realisierte Gewinne/Verluste je Produkt".toList

def realStop : List Char := "Alle Dividenden und Kupons".toList

/-- One matched row turned into a record: strings stripped as in the
source, `Land` the first two ISIN characters, numeric fields converted via
comma replacement and `float`. -/
def parseRealRow (g : List Char × List Char × List Char × List Char) :
    Option RealizedGainRecord :=
  match parseFloatQ (replCommas (strip g.2.2.1)),
      parseFloatQ (replCommas (strip g.2.2.2)) with
  | some gl, some fee =>
    some ⟨strip g.1, strip g.2.1, gl, fee, (strip g.2.1).take 2⟩
  | _, _ => none

def parseRealRows :
    List (List Char × List Char × List Char × List Char) →
      Option (List RealizedGainRecord)
  | [] => some []
  | r :: rs =>
    match parseRealRow r, parseRealRows rs with
    | some a, some as => some (a :: as)
    | _, _ => none

def extract_realized_profits_and_fees (raw_text : List Char) : RealResult :=
  match sectionBetween realStart realStop raw_text with
  | none => .noSection
  | some sectionText =>
    if (findTableRows sectionText).isEmpty then .err
    else
      match parseRealRows (findTableRows sectionText) with
      | none => .err
      | some recs =>
        .ok recs (positiveEntries recs) (negativeEntries recs)
          (positiveEntriesDe recs) (negativeEntriesDe recs)
          (positiveEntriesAusl recs) (negativeEntriesAusl recs)

/-! ## Fee scalar extractor (`extract_transaction_fee`)

Source regex: `Transaktionsgebühren.*?([\d,.]+)\s*EUR` (no DOTALL, so the
lazy gap `.*?` cannot cross a newline, while `\s*` can). -/

def feeLabel : List Char := "Transaktionsgebühren".toList

/-- Character class `[\d,.]`. -/
def isFeeChar (c : Char) : Bool := c.isDigit || c = ',' || c = '.'

/-- Try `([\d,.]+)\s*EUR` at exactly this position.  The greedy group can
only succeed with its maximal run: a shortened run leaves a digit, comma or
period as the next character, which matches neither `\s` nor the literal
`E`; likewise `\s*` must take its whole run to reach the `E`. -/
def feeNumberAt (s : List Char) : Option (List Char) :=
  if (s.takeWhile isFeeChar).isEmpty then none
  else if startsWith "EUR".toList
      ((s.drop (s.takeWhile isFeeChar).length).dropWhile isSpace) then
    some (s.takeWhile isFeeChar)
  else none

/-- The lazy gap `.*?`: try the number at the current position first, then
extend the gap one (non-newline) character at a time. -/
def feeAfterLabel : List Char → Option (List Char)
  | [] => none
  | c :: cs =>
    match feeNumberAt (c :: cs) with
    | some tok => some tok
    | none => if c = '\n' then none else feeAfterLabel cs

/-- `re.search`: leftmost occurrence of the literal label from which the
rest of the pattern matches. -/
def feeSearch : List Char → Option (List Char)
  | [] => none
  | c :: cs =>
    if startsWith feeLabel (c :: cs) then
      match feeAfterLabel ((c :: cs).drop feeLabel.length) with
      | some tok => some tok
      | none => feeSearch cs
    else feeSearch cs

/-- `none` models the uncaught `ValueError` of `float()` on a matched token
that does not convert (e.g. a thousands separator); no regex match yields
`0`; a convertible match yields its absolute value. -/
def extract_transaction_fee (raw_text : List Char) : Option ℚ :=
  match feeSearch raw_text with
  | none => some 0
  | some tok =>
    match parseFloatQ (replCommas tok) with
    | none => none
    | some q => some |q|

/-! ## Formula engine and `main` -/

structure ReportLine where
  zeile : String
  beschreibung : String
  betragNum : ℚ
  betrag : List Char
deriving DecidableEq, Repr

/-- Round to the nearest integer, halves up: `⌊x + 1/2⌋` computed on the
numerator and denominator.  Stands in for the rounding inside the CPython
`%.2f`; the two differ only on exact half-cent binary-float ties, which no
claim exercises. -/
def roundQ (x : ℚ) : ℤ := Int.fdiv (2 * x.num + (x.den : ℤ)) (2 * (x.den : ℤ))

/-- `f"{x:.2f} EUR"`: optional sign from the value, integer digits, a
period, exactly two fraction digits, and the currency suffix. -/
def formatFixed2 (x : ℚ) : List Char :=
  (if x < 0 then ['-'] else []) ++
    Nat.toDigits 10 ((roundQ (x * 100)).natAbs / 100) ++
    ['.', Nat.digitChar ((roundQ (x * 100)).natAbs % 100 / 10),
      Nat.digitChar ((roundQ (x * 100)).natAbs % 100 % 10), ' ', 'E', 'U', 'R']

def mkLine (z b : String) (x : ℚ) : ReportLine := ⟨z, b, x, formatFixed2 x⟩

/-- The ten `tax_rows` of `main`, in source order, with the `Betrag` column
appended as in line 193 of the source. -/
def taxRows (transaktionsgebuehren dividend_sum_de dividend_sum_ausl
    positive_entries negative_entries positive_entries_de negative_entries_de
    positive_entries_ausl negative_entries_ausl kapitalertragsteuer_divi : ℚ) :
    List ReportLine :=
  [mkLine "7" "Kapitalerträge" (dividend_sum_de + positive_entries_de),
    mkLine "8" "Gewinne aus Aktienveräußerungen" positive_entries,
    mkLine "12" "Nicht ausgeglichene Verluste aus der Veräußerung von Aktien"
      negative_entries,
    mkLine "18" "Inländische Kapitalerträge"
      (positive_entries_de + negative_entries_de + dividend_sum_de),
    mkLine "19" "Ausländische Kapitalerträge"
      (positive_entries_ausl + negative_entries_ausl + dividend_sum_ausl +
        positive_entries_ausl - transaktionsgebuehren),
    mkLine "20"
      "In den Zeilen 18 und 19 enthaltene Gewinne aus Aktienveräußerungen i. S. d. § 20 Abs. 2 Satz 1 Nr. 1 EStG"
      positive_entries_ausl,
    mkLine "23"
      "In den Zeilen 18 und 19 enthaltene Verluste aus der Veräußerung von Aktien i. S. d. § 20 Abs. 2 Satz 1 Nr. 1 EStG"
      negative_entries_ausl,
    mkLine "37" "Kapitalertragsteuer" kapitalertragsteuer_divi,
    mkLine "38" "Solidaritätszuschlag" (kapitalertragsteuer_divi * (0.055 : ℚ)),
    mkLine "41" "Anrechenbare ausländische Steuern"
      (dividend_sum_ausl * (0.15 : ℚ))]

/-- The pipeline of `main` up to the report rows handed to the sink.
`none` models every way the run ends with no output file: empty source
text (early `return`), a fee token that `float()` rejects, a dividend
result that is not the expected 4-tuple (`ValueError` at the unpacking),
a `None` realized-gains result (`TypeError` at the unpacking), or an
exception escaping the realized-gains extractor. -/
def main (raw_text : List Char) : Option (List ReportLine) :=
  if raw_text.isEmpty then none
  else
    match extract_transaction_fee raw_text with
    | none => none
    | some transaktionsgebuehren =>
      match extract_dividend_table raw_text with
      | .err => none
      | .ok dividend_df _dividend_sum dividend_sum_de dividend_sum_ausl =>
        match extract_realized_profits_and_fees raw_text with
        | .noSection => none
        | .err => none
        | .ok _profits_df positive_entries negative_entries positive_entries_de
            negative_entries_de positive_entries_ausl negative_entries_ausl =>
          some (taxRows transaktionsgebuehren dividend_sum_de dividend_sum_ausl
            positive_entries negative_entries positive_entries_de
            negative_entries_de positive_entries_ausl negative_entries_ausl
            (dividendSteuerDe dividend_df))

/-! ## Concrete documents used as witnesses and counterexamples -/

/-- A complete small document: a two-row dividend table, a one-row
realized-gains section and a fee line. -/
def fullDocText : List Char :=
  ("Land Bruttodividende Quellensteuer Nettodividende\n" ++
    "DE 100,00 26,38 73,62\n" ++
    "US 50,00 7,50 42,50\n" ++
    "TOTAL\n" ++
    "Kuponübersicht\n" ++
    "Realisierte Gewinne/Verluste je Produkt\n" ++
    "Apple Inc. US0378331005 100,00 1,00\n" ++
    "Alle Dividenden und Kupons\n" ++
    "Transaktionsgebühren 12,50 EUR").toList

/-- A document with a valid (empty) dividend table and no realized-gains
section at all. -/
def c1text : List Char :=
  "Land Bruttodividende Quellensteuer Nettodividende\nTOTAL\nKuponübersicht".toList

/-- A document whose only dividend data row has three tokens, so the frame
width is three and the constructor raises. -/
def c2text : List Char :=
  ("Land Bruttodividende Quellensteuer Nettodividende\n" ++
    "DE 100,00 26,38\nTOTAL\nKuponübersicht").toList

/-- The dividend section located inside `c2text`. -/
def c2tbl : List Char := "DE 100,00 26,38\nTOTAL".toList

/-- A complete document whose dividend table mixes a four-token row with a
three-token row: pandas pads the short row with `None`, so the frame is
built and the run completes. -/
def c2mixedtext : List Char :=
  ("Land Bruttodividende Quellensteuer Nettodividende\n" ++
    "DE 100,00 26,38 73,62\n" ++
    "US 50,00 7,50\n" ++
    "TOTAL\n" ++
    "Kuponübersicht\n" ++
    "Realisierte Gewinne/Verluste je Produkt\n" ++
    "Apple Inc. US0378331005 100,00 1,00\n" ++
    "Alle Dividenden und Kupons\n" ++
    "Transaktionsgebühren 12,50 EUR").toList

/-- The dividend section located inside `c2mixedtext`. -/
def c2mixedtbl : List Char :=
  "DE 100,00 26,38 73,62\nUS 50,00 7,50\nTOTAL".toList

/-- Fee text whose matched token carries a thousands separator. -/
def c4badtext : List Char := "Transaktionsgebühren 9.876,54 EUR".toList

/-- The fee scenario text of the specification. -/
def c4scenario : List Char :=
  "xx Transaktionsgebühren insgesamt 12,50 EUR yy".toList

/-- The dividend-section scenario of the specification. -/
def c7tbl : List Char := "DE 100,00 26,38 73,62\nUS 50,00 7,50 42,50\nTOTAL".toList

/-- Fee text with a thousands separator, for the totality claim. -/
def c9text : List Char := "Transaktionsgebühren 1.234,56 EUR".toList

/-- Both realized-gains anchors present with nothing between them. -/
def c10text : List Char :=
  ("Realisierte Gewinne/Verluste je Produkt" ++ "Alle Dividenden und Kupons").toList

/-- Two realized-gain records, one positive-net foreign, one negative-net
domestic. -/
def demoRealRecs : List RealizedGainRecord :=
  [⟨"Apple Inc.".toList, "US0378331005".toList, 100, 1, "US".toList⟩,
    ⟨"Bayer AG".toList, "DE000BAY0017".toList, 2, 5, "DE".toList⟩]

/-! ## Helper lemmas -/

/-- The fractional branch of `parseUnsigned` carries the decimal reading
`intPart + fracPart / 10 ^ fracLen` of the literal. -/
theorem parseUnsigned_frac_value (i f k : ℕ) :
    (mkRat (i * 10 ^ k + f) (10 ^ k) : ℚ) = (i : ℚ) + (f : ℚ) / (10 : ℚ) ^ k := by
  rw [Rat.mkRat_eq_div]
  push_cast
  field_simp

theorem digitChar_isDigit : ∀ n : Nat, n < 10 → (Nat.digitChar n).isDigit = true := by
  decide

/-- Every formatted amount decomposes as a prefix, a period, exactly two
digit characters, and the currency suffix. -/
theorem formatFixed2_shape (x : ℚ) :
    ∃ pre d1 d2, d1.isDigit = true ∧ d2.isDigit = true ∧
      formatFixed2 x = pre ++ ('.' :: d1 :: d2 :: [' ', 'E', 'U', 'R']) := by
  refine ⟨(if x < 0 then ['-'] else []) ++
      Nat.toDigits 10 ((roundQ (x * 100)).natAbs / 100),
    Nat.digitChar ((roundQ (x * 100)).natAbs % 100 / 10),
    Nat.digitChar ((roundQ (x * 100)).natAbs % 100 % 10), ?_, ?_, ?_⟩
  · apply digitChar_isDigit
    have h : (roundQ (x * 100)).natAbs % 100 < 100 := Nat.mod_lt _ (by norm_num)
    omega
  · exact digitChar_isDigit _ (Nat.mod_lt _ (by norm_num))
  · unfold formatFixed2
    rw [List.append_assoc]

theorem sum_nonpos_of_all_nonpos (l : List ℚ) (h : ∀ x ∈ l, x ≤ 0) :
    l.sum ≤ 0 := by
  induction l with
  | nil => simp
  | cons a as ih =>
    rw [List.sum_cons]
    have ha := h a (List.mem_cons_self a as)
    have has := ih (fun x hx => h x (List.mem_cons_of_mem a hx))
    linarith

theorem parseDividendRows_length (rows : List (List (List Char)))
    (recs : List DividendRecord) (h : parseDividendRows rows = some recs) :
    recs.length = rows.length := by
  induction rows generalizing recs with
  | nil =>
    simp only [parseDividendRows] at h
    injection h with h
    subst h
    rfl
  | cons r rs ih =>
    unfold parseDividendRows at h
    cases h1 : parseDividendRow r with
    | none => rw [h1] at h; exact absurd h (by simp)
    | some a =>
      cases h2 : parseDividendRows rs with
      | none => rw [h1, h2] at h; exact absurd h (by simp)
      | some as =>
        rw [h1, h2] at h
        injection h with h
        subst h
        simp [ih as h2]

/-- Inversion of a completed run: `main` produced rows exactly when all
three extractions succeeded, and the rows are `taxRows` of their outputs. -/
theorem main_inversion (text : List Char) (lines : List ReportLine)
    (h : main text = some lines) :
    ∃ fee drecs dsum dde dausl rrecs pos neg posDe negDe posAusl negAusl,
      extract_transaction_fee text = some fee ∧
      extract_dividend_table text = DivResult.ok drecs dsum dde dausl ∧
      extract_realized_profits_and_fees text =
        RealResult.ok rrecs pos neg posDe negDe posAusl negAusl ∧
      lines = taxRows fee dde dausl pos neg posDe negDe posAusl negAusl
        (dividendSteuerDe drecs) := by
  unfold main at h
  by_cases he : text.isEmpty = true
  · rw [if_pos he] at h; exact absurd h (by simp)
  · rw [if_neg he] at h
    cases hfee : extract_transaction_fee text with
    | none => rw [hfee] at h; exact absurd h (by simp)
    | some fee =>
      rw [hfee] at h
      cases hdiv : extract_dividend_table text with
      | err => rw [hdiv] at h; exact absurd h (by simp)
      | ok drecs dsum dde dausl =>
        rw [hdiv] at h
        cases hreal : extract_realized_profits_and_fees text with
        | noSection => rw [hreal] at h; exact absurd h (by simp)
        | err => rw [hreal] at h; exact absurd h (by simp)
        | ok rrecs pos neg posDe negDe posAusl negAusl =>
          rw [hreal] at h
          injection h with h
          exact ⟨fee, drecs, dsum, dde, dausl, rrecs, pos, neg, posDe, negDe,
            posAusl, negAusl, rfl, rfl, rfl, h.symm⟩


/-! ## Claims -/

/-- Claim C5: for every list of dividend records, the total gross-dividend
sum equals the domestic gross-dividend sum plus the foreign gross-dividend
sum — the domestic/foreign split partitions the records exhaustively and
exclusively. -/
theorem c5_dividend_partition (recs : List DividendRecord) :
    dividendSum recs = dividendSumDe recs + dividendSumAusl recs := by
  induction recs with
  | nil => simp [dividendSum, dividendSumDe, dividendSumAusl]
  | cons r rs ih =>
    unfold dividendSum dividendSumDe dividendSumAusl at ih ⊢
    simp only [List.filter_cons, decide_not] at ih ⊢
    by_cases h : r.land = deCode
    · rw [if_pos (by simp [h]), if_neg (by simp [h])]
      cases hb : r.brutto with
      | none => simp only [List.filterMap_cons, hb]; exact ih
      | some b =>
        simp only [List.filterMap_cons, hb, List.sum_cons]
        rw [ih]
        ring
    · rw [if_neg (by simp [h]), if_pos (by simp [h])]
      cases hb : r.brutto with
      | none => simp only [List.filterMap_cons, hb]; exact ih
      | some b =>
        simp only [List.filterMap_cons, hb, List.sum_cons]
        rw [ih]
        ring

/-- Claim C6: for every list of realized-gain records, the positive bucket
sum is nonnegative, the negative bucket sum is nonpositive, and every
record contributing to a bucket has a net result whose sign matches that
bucket. -/
theorem c6_bucket_signs (recs : List RealizedGainRecord) :
    0 ≤ positiveEntries recs ∧ negativeEntries recs ≤ 0 ∧
      (∀ r ∈ recs.filter (fun r => decide (0 < gvOf r)), 0 < gvOf r) ∧
      (∀ r ∈ recs.filter (fun r => decide (gvOf r < 0)), gvOf r < 0) := by
  refine ⟨?_, ?_, ?_, ?_⟩
  · apply List.sum_nonneg
    intro x hx
    obtain ⟨r, hr, rfl⟩ := List.mem_map.mp hx
    exact le_of_lt (by simpa using List.of_mem_filter hr)
  · apply sum_nonpos_of_all_nonpos
    intro x hx
    obtain ⟨r, hr, rfl⟩ := List.mem_map.mp hx
    exact le_of_lt (by simpa using List.of_mem_filter hr)
  · intro r hr
    simpa using List.of_mem_filter hr
  · intro r hr
    simpa using List.of_mem_filter hr

/-- Witness for C6 at a concrete record list. -/
theorem c6_bucket_signs_witness :
    0 ≤ positiveEntries demoRealRecs ∧ negativeEntries demoRealRecs ≤ 0 ∧
      (∀ r ∈ demoRealRecs.filter (fun r => decide (0 < gvOf r)), 0 < gvOf r) ∧
      (∀ r ∈ demoRealRecs.filter (fun r => decide (gvOf r < 0)), gvOf r < 0) :=
  c6_bucket_signs demoRealRecs

/-- Claim C9: the fee extractor is not total — on this text the fee
pattern matches the token `1.234,56`, the comma-to-period replacement
leaves two periods, `float()` raises, and no number (neither the parsed
fee nor the zero default) is returned. -/
theorem c9_fee_extractor_not_total :
    feeSearch c9text = some ("1.234,56".toList) ∧
      parseFloatQ (replCommas ("1.234,56".toList)) = none ∧
      extract_transaction_fee c9text = none := by decide

/-- Claim C10: with both realized-gains anchors present and no row
matching the pattern, the extractor raises (empty record table, column
access fails) instead of returning an empty record set with zero sums. -/
theorem c10_rowless_section_raises :
    sectionBetween realStart realStop c10text = some [] ∧
      extract_realized_profits_and_fees c10text = RealResult.err := by decide

/-- Claim C1 (code bug): on a document whose realized-gains section is
absent, the extractor returns the `None` sentinel, and the pipeline aborts
with no report rows instead of completing with zero aggregates. -/
theorem c1_missing_section_aborts_run :
    extract_realized_profits_and_fees c1text = RealResult.noSection ∧
      extract_dividend_table c1text = DivResult.ok [] 0 0 0 ∧
      main c1text = none := by decide

/-- Counterexample to C4 as stated: on this text the fee pattern does
match (token `9.876,54`), yet the extractor returns no value at all —
neither an absolute value nor the zero default — because the numeric
conversion raises. -/
theorem c4_fee_counterexample :
    feeSearch c4badtext = some ("9.876,54".toList) ∧
      extract_transaction_fee c4badtext = none := by decide

/-- Claim C4 (amended): when the fee pattern finds no match the extractor
returns zero, and when the matched token converts after comma-to-period
replacement the extractor returns the absolute value of the parsed
number. -/
theorem c4_fee_value (text : List Char) :
    (feeSearch text = none → extract_transaction_fee text = some 0) ∧
      (∀ tok q, feeSearch text = some tok →
        parseFloatQ (replCommas tok) = some q →
        extract_transaction_fee text = some |q|) := by
  constructor
  · intro h
    simp [extract_transaction_fee, h]
  · intro tok q h hq
    simp [extract_transaction_fee, h, hq]

/-- Witness for C4 on the scenario text of the specification: the matched token
is `12,50` and the extracted fee is `12.5`. -/
theorem c4_fee_value_witness :
    feeSearch c4scenario = some ("12,50".toList) ∧
      extract_transaction_fee c4scenario = some (12.5 : ℚ) := by
  have h : feeSearch c4scenario = some ("12,50".toList) := by decide
  have hq : parseFloatQ (replCommas ("12,50".toList)) = some (mkRat 1250 100) := by
    decide
  have h2 := (c4_fee_value c4scenario).2 ("12,50".toList) (mkRat 1250 100) h hq
  refine ⟨h, ?_⟩
  rw [h2]
  norm_num [Rat.mkRat_eq_div, abs_of_pos]

set_option maxRecDepth 20000 in
/-- Counterexample to C2 as stated: the dividend section of this document
contains a three-token row next to a four-token row, yet the extraction
succeeds — pandas pads the short row with missing values — and the
pipeline completes instead of aborting. -/
theorem c2_short_row_completes :
    (∃ r ∈ divRows c2mixedtbl, r.length ≠ 4) ∧
      sectionBetween divHeader divFooter c2mixedtext = some c2mixedtbl ∧
      (extract_dividend_table c2mixedtext).isOk = true ∧
      (main c2mixedtext).isSome = true :=
  ⟨by decide, by decide, rfl, rfl⟩

/-- Claim C2 (amended): the dividend extraction fails as a whole — no
record set is produced — and the pipeline aborts with no output exactly
when the padded frame cannot be built: there is at least one data row and
the maximum token count over the rows differs from four (e.g. a section
whose only data row has three tokens, or any row with five).  A shorter
row alongside four-token rows is padded with missing values instead and
does not abort the run. -/
theorem c2_bad_width_aborts (text tbl : List Char)
    (hsec : sectionBetween divHeader divFooter text = some tbl)
    (hrows : divRows tbl ≠ [])
    (hbad : maxRowWidth (divRows tbl) ≠ 4) :
    extract_dividend_table text = DivResult.err ∧ main text = none := by
  have hdiv : extract_dividend_table text = DivResult.err := by
    unfold extract_dividend_table
    rw [hsec]
    show parseDividendSection tbl = DivResult.err
    unfold parseDividendSection
    rw [if_pos ⟨hrows, hbad⟩]
  refine ⟨hdiv, ?_⟩
  have hne : ¬(text.isEmpty = true) := by
    intro h
    rw [List.isEmpty_iff] at h
    subst h
    rw [show sectionBetween divHeader divFooter [] = none from by decide] at hsec
    exact Option.noConfusion hsec
  unfold main
  rw [if_neg hne]
  cases hfee : extract_transaction_fee text with
  | none => rfl
  | some fee => rw [hdiv]

/-- Witness for the amended C2: a section whose single data row has three
tokens (frame width three) makes the extraction fail and the run abort. -/
theorem c2_bad_width_aborts_witness :
    extract_dividend_table c2text = DivResult.err ∧ main c2text = none :=
  c2_bad_width_aborts c2text c2tbl (by decide) (by decide) (by decide)

/-- Claim C7: for every well-formed dividend section (every line nonempty,
strict parsing succeeded), the number of parsed records equals the number
of nonempty lines minus one — the dropped line being the trailing total
line. -/
theorem c7_record_count (tbl : List Char) (recs : List DividendRecord)
    (s sde sausl : ℚ)
    (hok : parseDividendSection tbl = DivResult.ok recs s sde sausl)
    (hne : ∀ l ∈ divLines tbl, l ≠ []) :
    recs.length = ((divLines tbl).filter (fun l => !l.isEmpty)).length - 1 := by
  have hfilter : (divLines tbl).filter (fun l => !l.isEmpty) = divLines tbl :=
    List.filter_eq_self.mpr (fun l hl => by simpa [List.isEmpty_iff] using hne l hl)
  rw [hfilter]
  unfold parseDividendSection at hok
  by_cases hw : divRows tbl ≠ [] ∧ maxRowWidth (divRows tbl) ≠ 4
  · rw [if_pos hw] at hok
    exact absurd hok (by simp)
  · rw [if_neg hw] at hok
    cases hp : parseDividendRows (divRows tbl) with
    | none => rw [hp] at hok; exact absurd hok (by simp)
    | some recs2 =>
      rw [hp] at hok
      injection hok with h1 h2 h3 h4
      subst h1
      rw [parseDividendRows_length _ _ hp]
      simp [divRows]

/-- Witness for C7 on the dividend scenario of the specification: two records,
three nonempty lines. -/
theorem c7_record_count_witness :
    ([⟨"DE".toList, some 100, some (mkRat 2638 100), some (mkRat 7362 100)⟩,
      ⟨"US".toList, some 50, some (mkRat 750 100), some (mkRat 4250 100)⟩] :
        List DividendRecord).length =
      ((divLines c7tbl).filter (fun l => !l.isEmpty)).length - 1 :=
  c7_record_count c7tbl
    [⟨"DE".toList, some 100, some (mkRat 2638 100), some (mkRat 7362 100)⟩,
      ⟨"US".toList, some 50, some (mkRat 750 100), some (mkRat 4250 100)⟩]
    (dividendSum [⟨"DE".toList, some 100, some (mkRat 2638 100), some (mkRat 7362 100)⟩,
      ⟨"US".toList, some 50, some (mkRat 750 100), some (mkRat 4250 100)⟩])
    (dividendSumDe [⟨"DE".toList, some 100, some (mkRat 2638 100), some (mkRat 7362 100)⟩,
      ⟨"US".toList, some 50, some (mkRat 750 100), some (mkRat 4250 100)⟩])
    (dividendSumAusl [⟨"DE".toList, some 100, some (mkRat 2638 100), some (mkRat 7362 100)⟩,
      ⟨"US".toList, some 50, some (mkRat 750 100), some (mkRat 4250 100)⟩])
    rfl (by decide)

/-- Claim C3: for every completed run, the single line 19 of the report
carries the amount
`foreignPositiveNet + foreignNegativeNet + foreignGrossDividends +
foreignPositiveNet - scalarFee` — the foreign positive net result added
twice, the scalar fee subtracted once. -/
theorem c3_line19_formula (text : List Char) (lines : List ReportLine)
    (h : main text = some lines) :
    ∃ fee drecs dsum dde dausl rrecs pos neg posDe negDe posAusl negAusl,
      extract_transaction_fee text = some fee ∧
      extract_dividend_table text = DivResult.ok drecs dsum dde dausl ∧
      extract_realized_profits_and_fees text =
        RealResult.ok rrecs pos neg posDe negDe posAusl negAusl ∧
      lines.filter (fun l => l.zeile == "19") =
        [mkLine "19" "Ausländische Kapitalerträge"
          (posAusl + negAusl + dausl + posAusl - fee)] := by
  obtain ⟨fee, drecs, dsum, dde, dausl, rrecs, pos, neg, posDe, negDe, posAusl,
    negAusl, hfee, hdiv, hreal, hlines⟩ := main_inversion text lines h
  subst hlines
  exact ⟨fee, drecs, dsum, dde, dausl, rrecs, pos, neg, posDe, negDe, posAusl,
    negAusl, hfee, hdiv, hreal, rfl⟩

set_option maxRecDepth 20000 in
/-- Witness for C3 on a complete concrete document. -/
theorem c3_line19_formula_witness :
    ∃ fee drecs dsum dde dausl rrecs pos neg posDe negDe posAusl negAusl,
      extract_transaction_fee fullDocText = some fee ∧
      extract_dividend_table fullDocText = DivResult.ok drecs dsum dde dausl ∧
      extract_realized_profits_and_fees fullDocText =
        RealResult.ok rrecs pos neg posDe negDe posAusl negAusl ∧
      ((main fullDocText).getD []).filter (fun l => l.zeile == "19") =
        [mkLine "19" "Ausländische Kapitalerträge"
          (posAusl + negAusl + dausl + posAusl - fee)] :=
  c3_line19_formula fullDocText ((main fullDocText).getD []) rfl

/-- Claim C8: every completed run emits exactly the ten report lines
7, 8, 12, 18, 19, 20, 23, 37, 38, 41 in this fixed order, independent of
the input document, and every amount string is a prefix followed by a
period, exactly two digit characters and the currency suffix. -/
theorem c8_fixed_report_shape (text : List Char) (lines : List ReportLine)
    (h : main text = some lines) :
    lines.map (fun l => l.zeile) =
        ["7", "8", "12", "18", "19", "20", "23", "37", "38", "41"] ∧
      lines.length = 10 ∧
      ∀ l ∈ lines, ∃ pre d1 d2, d1.isDigit = true ∧ d2.isDigit = true ∧
        l.betrag = pre ++ ('.' :: d1 :: d2 :: [' ', 'E', 'U', 'R']) := by
  obtain ⟨fee, drecs, dsum, dde, dausl, rrecs, pos, neg, posDe, negDe, posAusl,
    negAusl, hfee, hdiv, hreal, hlines⟩ := main_inversion text lines h
  subst hlines
  refine ⟨rfl, rfl, ?_⟩
  intro l hl
  simp only [taxRows, List.mem_cons, List.not_mem_nil, or_false] at hl
  rcases hl with rfl | rfl | rfl | rfl | rfl | rfl | rfl | rfl | rfl | rfl <;>
    exact formatFixed2_shape _

set_option maxRecDepth 20000 in
/-- Witness for C8 on a complete concrete document. -/
theorem c8_fixed_report_shape_witness :
    ((main fullDocText).getD []).map (fun l => l.zeile) =
        ["7", "8", "12", "18", "19", "20", "23", "37", "38", "41"] ∧
      ((main fullDocText).getD []).length = 10 ∧
      ∀ l ∈ (main fullDocText).getD [], ∃ pre d1 d2,
        d1.isDigit = true ∧ d2.isDigit = true ∧
        l.betrag = pre ++ ('.' :: d1 :: d2 :: [' ', 'E', 'U', 'R']) :=
  c8_fixed_report_shape fullDocText ((main fullDocText).getD []) rfl

end Degiro
